import Mathlib

/-
  Verification development for the ts-migrate type-synthesis core
  (packages/ts-migrate-plugins/src/plugins/react-shape.ts, which contains
  the `react-shape` shape-extraction plugin and the `jsdoc`
  signature-annotation plugin).

  The definitions below are a shallow embedding of the source: TypeScript
  AST nodes become inductive types carrying exactly the fields the plugins
  read, and each plugin function is ported statement by statement.
  Functions of this repository that are referenced but not present under
  src/ (the patch engine `updateSourceText` and the react-props
  object-literal translator) are modelled from the spec and marked as such
  in their doc comments.
-/

namespace TsMigrate

/-! ## String helpers (JS `String.prototype` operations used by the source) -/

/-- Does `pat` occur as a contiguous run inside the list? -/
def listIsInfixOf (pat : List Char) : List Char → Bool
  | [] => pat.isEmpty
  | c :: rest => pat.isPrefixOf (c :: rest) || listIsInfixOf pat rest

/-- JS `s.includes(pat)` / regex literal-substring test, over characters. -/
def strContains (s pat : String) : Bool :=
  listIsInfixOf pat.toList s.toList

/-- Helper for `firstIdxOf`: index of the first occurrence of `pat` in the
list, counting from `i`. -/
def firstIdxOfAux (pat : List Char) : List Char → Nat → Option Nat
  | [], i => if pat.isEmpty then some i else none
  | c :: rest, i =>
      if pat.isPrefixOf (c :: rest) then some i
      else firstIdxOfAux pat rest (i + 1)

/-- JS `s.indexOf(pat)` (none when absent; the source only calls it where
the substring is present). -/
def firstIdxOf (s pat : String) : Option Nat :=
  firstIdxOfAux pat.toList s.toList 0

/-- Substring of `s` of length `len` starting at character index `start`. -/
def extractSub (s : String) (start len : Nat) : String :=
  String.mk ((s.toList.drop start).take len)

/-- One alternative of the regex `/PropTypes.shape|Types.shape/`: does the
string contain `a`, then one arbitrary character (the regex `.`), then `b`? -/
def listHasDotPat (a b : List Char) : List Char → Bool
  | [] => false
  | c :: rest =>
      (a.isPrefixOf (c :: rest) &&
        (match (c :: rest).drop a.length with
         | [] => false
         | _ :: r2 => b.isPrefixOf r2)) ||
      listHasDotPat a b rest

/-- JS `s.startsWith(pre)`, over characters. -/
def strStartsWith (s pre : String) : Bool :=
  pre.toList.isPrefixOf s.toList

/-- JS `s.endsWith(suffix)`, over characters. -/
def strEndsWith (s suffix : String) : Bool :=
  suffix.toList.isSuffixOf s.toList

/-- JS `s.includes(c)` for one character. -/
def strContainsChar (s : String) (c : Char) : Bool :=
  s.toList.contains c

/-- JS `s.substring(n)`, over characters. -/
def strDrop (s : String) (n : Nat) : String :=
  String.mk (s.toList.drop n)

/-- Is the string empty (JS falsiness of a string)? -/
def strIsEmpty (s : String) : Bool :=
  s.toList.isEmpty

/-- JS `s.toLowerCase()` (character-wise). -/
def strToLower (s : String) : String :=
  String.mk (s.toList.map Char.toLower)

/-- Helper for `splitOnChar`; `acc` holds the current piece reversed. -/
def splitOnCharAux (sep : Char) : List Char → List Char → List String
  | [], acc => [String.mk acc.reverse]
  | c :: rest, acc =>
      if c == sep then String.mk acc.reverse :: splitOnCharAux sep rest []
      else splitOnCharAux sep rest (c :: acc)

/-- JS `s.split(sep)` for a one-character separator (always nonempty). -/
def splitOnChar (s : String) (sep : Char) : List String :=
  splitOnCharAux sep s.toList []

/-- Join with a separator (JS `Array.prototype.join`). -/
def strJoin (sep : String) : List String → String
  | [] => ""
  | [x] => x
  | x :: xs => x ++ sep ++ strJoin sep xs

/-- Strip the spaces at the end of one line (`/ +$/` acting on a single line). -/
def stripLineTrailingSpaces (line : String) : String :=
  String.mk (((line.toList.reverse).dropWhile (· == ' ')).reverse)

/-- JS `result.replace(/ +$/gm, '')`: remove trailing spaces from every line. -/
def stripTrailingSpaces (s : String) : String :=
  strJoin "\n" ((splitOnChar s '\n').map stripLineTrailingSpaces)

/-- `path.basename`: the final path component. -/
def basename (fileName : String) : String :=
  ((splitOnChar fileName '/').getLast?).getD fileName

/-! ## Entity names, binding names, type-map options -/

/-- `ts.EntityName`: an identifier or a dotted qualified name. -/
inductive EntityName where
  | ident (text : String)
  | qualified (left : EntityName) (right : String)
deriving Repr, DecidableEq

/-- Port of `getEntityNameText` (react-shape.ts lines 431-434). -/
def getEntityNameText : EntityName → String
  | .ident s => s
  | .qualified l r => getEntityNameText l ++ "." ++ r

/-- A parameter's binding name: an identifier, an object destructuring
pattern, or an array destructuring pattern. -/
inductive BindingName where
  | ident (text : String)
  | objectPattern
  | arrayPattern
deriving Repr, DecidableEq

/-- `TypeOptions` from the jsdoc plugin: either a direct rename string or a
record with optional `tsName` and `acceptsTypeParameters`. -/
inductive TypeOptions where
  | rename (s : String)
  | opts (tsName : Option String) (acceptsTypeParameters : Option Bool)
deriving Repr, DecidableEq

/-- A type map is an association list from source type name to options;
lookup takes the first matching key (JS object property access). -/
abbrev TypeMap := List (String × TypeOptions)

/-- JS `text in typeMap ? typeMap[text] : absent`. -/
def lookupTypeMap (tm : TypeMap) (text : String) : Option TypeOptions :=
  (tm.find? (fun p => p.1 == text)).map (·.2)

/-- `defaultTypeMap` from the jsdoc plugin (react-shape.ts lines 337-374). -/
def defaultTypeMap : TypeMap :=
  [ ("String", .opts (some "string") (some false)),
    ("Boolean", .opts (some "boolean") (some false)),
    ("Number", .opts (some "number") (some false)),
    ("Object", .opts (some "object") (some false)),
    ("date", .opts (some "Date") (some false)),
    ("Date", .opts (some "Date") (some false)),
    ("Symbol", .opts (some "symbol") (some false)),
    ("Function", .opts (some "Function") (some false)),
    ("array", .rename "Array"),
    ("Array", .rename "Array"),
    ("promise", .rename "Promise") ]

/-! ## Type nodes

A shallow model of the `ts.TypeNode` constructors the two plugins read or
build, together with parameter declarations, type-literal members and
JSDoc property tags (mutually recursive in the TypeScript AST). -/

mutual

inductive TsType where
  | stringKw
  | numberKw
  | booleanKw
  | symbolKw
  | objectKw
  | anyKw
  | litNull
  | ref (name : EntityName) (args : Option (List TsType))
  | array (elem : TsType)
  | union (variants : List TsType)
  | fn (params : List ParamDecl) (ret : TsType)
  | typeLit (members : List Member)
  | jsdocAll
  | jsdocUnknown
  | jsdocOptional (inner : TsType)
  | jsdocNonNullable (inner : TsType)
  | jsdocNullable (inner : TsType)
  | jsdocVariadic (inner : TsType)
  | jsdocFunction (params : List ParamDecl) (ret : Option TsType)
  | jsdocTypeLiteral (propTags : List PropTag)
  | otherKind (kindId : Nat)

inductive ParamDecl where
  | mk (name? : Option BindingName) (dotDotDot : Bool) (question : Bool)
       (type? : Option TsType) (hasInitializer : Bool)

inductive Member where
  | propertySignature (name : String) (optional : Bool) (type : TsType)
  | indexSignature (paramName : String) (keyType valueType : TsType)

inductive PropTag where
  | mk (name : EntityName) (typeExpr? : Option TsType) (isBracketed : Bool)

end

/-- The binding name of a parameter declaration. -/
def ParamDecl.name? : ParamDecl → Option BindingName
  | .mk n _ _ _ _ => n

/-- The rest token of a parameter declaration. -/
def ParamDecl.dotDotDot : ParamDecl → Bool
  | .mk _ d _ _ _ => d

/-- The question token of a parameter declaration. -/
def ParamDecl.question : ParamDecl → Bool
  | .mk _ _ q _ _ => q

/-- The explicit type annotation of a parameter declaration, when present. -/
def ParamDecl.type? : ParamDecl → Option TsType
  | .mk _ _ _ t _ => t

/-- Whether the parameter carries a default initializer. -/
def ParamDecl.hasInitializer : ParamDecl → Bool
  | .mk _ _ _ _ i => i

/-- `PRIMITIVE_KEYWORDS` lookup / `primitiveKeywordNode`
(react-shape.ts lines 418-429). -/
def primitiveKeywordNode (name : String) : Option TsType :=
  if name == "string" then some .stringKw
  else if name == "number" then some .numberKw
  else if name == "boolean" then some .booleanKw
  else if name == "symbol" then some .symbolKw
  else if name == "object" then some .objectKw
  else none

/-- `ts.isJSDocOptionalType` on a type node. -/
def isJSDocOptionalTypeB : TsType → Bool
  | .jsdocOptional _ => true
  | _ => false

/-! ## jsdoc plugin: transformer context and visitors -/

/-- The transformer's ambient data: `anyType` (from the `anyAlias` option)
and the merged `typeMap` (react-shape.ts lines 441-444). -/
structure Ctx where
  anyType : TsType
  typeMap : TypeMap

/-- `anyAlias ? factory.createTypeReferenceNode(anyAlias, undefined)
: factory.createKeywordTypeNode(AnyKeyword)`; an empty alias is falsy in JS. -/
def mkAnyType (anyAlias? : Option String) : TsType :=
  match anyAlias? with
  | some s => if strIsEmpty s then .anyKw else .ref (.ident s) none
  | none => .anyKw

/-- `{ ...defaultTypeMap, ...optionsTypeMap }` under first-match lookup:
option entries shadow default entries. -/
def mergedTypeMap (optionsTypeMap : TypeMap) : TypeMap :=
  optionsTypeMap ++ defaultTypeMap

/-- Steps 771-779 of `visitJSDocTypeReference`: look the name up in the type
map, substituting the rename / `tsName` and reading `acceptsTypeParameters`
(`!== false`; an empty `tsName` is falsy in JS and does not rename). -/
def applyTypeMapEntry (tm : TypeMap) (text0 : String) : String × Bool :=
  match lookupTypeMap tm text0 with
  | none => (text0, true)
  | some (.rename s) => (s, true)
  | some (.opts tsName? acceptsTP?) =>
      let text :=
        match tsName? with
        | some s => if strIsEmpty s then text0 else s
        | none => text0
      (text, acceptsTP? != some false)

/-- The (possibly renamed) name a reference resolves to through the type map. -/
def applyTypeMapName (tm : TypeMap) (text0 : String) : String :=
  (applyTypeMapEntry tm text0).1

/-- Port of `isJSDocIndexSignature` (react-shape.ts lines 865-875): an
identifier reference named `Object` with exactly two type arguments whose
first is the `string` or `number` keyword. -/
def isJSDocIndexSignatureShape (name : EntityName) (args : Option (List TsType)) : Bool :=
  match name, args with
  | .ident t, some as =>
      t == "Object" && as.length == 2 &&
        (match as.head? with
         | some .stringKw => true
         | some .numberKw => true
         | _ => false)
  | _, _ => false

/-- Port of `visitJSDocIndexSignature` (react-shape.ts lines 813-835): a
single-member type literal holding an index signature; the value type is
`typeArguments[1]` taken as supplied. Only called when
`isJSDocIndexSignatureShape` holds, so the argument list has length two. -/
def visitJSDocIndexSignatureNode (args : List TsType) : TsType :=
  let isNum : Bool :=
    match args.head? with
    | some .numberKw => true
    | _ => false
  .typeLit [.indexSignature (if isNum then "n" else "s")
      (.ref (.ident (if isNum then "number" else "string")) (some []))
      ((args.drop 1).headD .anyKw)]

/-- Port of `visitJSDocTypeReference` (react-shape.ts lines 758-811) with the
recursion factored out: `argsV` is the list of already-visited type arguments
(the source visits each argument at the single place `argsV` is consumed,
so the result is unchanged). -/
def visitRefCore (c : Ctx) (name : EntityName) (args : Option (List TsType))
    (argsV : Option (List TsType)) : TsType :=
  if isJSDocIndexSignatureShape name args then
    visitJSDocIndexSignatureNode (args.getD [])
  else
    match name with
    | .ident text0 =>
        let entry := applyTypeMapEntry c.typeMap text0
        let text := entry.1
        let acceptsTypeParameters := entry.2
        match primitiveKeywordNode text with
        | some k => k
        | none =>
            if (text == "Array" || text == "Promise") && args.isNone then
              .ref (.ident text) (some [c.anyType])
            else if args.isSome && acceptsTypeParameters then
              let normalized := (argsV.getD []).map (fun v =>
                match v with
                | .ref (.ident t) _ => (primitiveKeywordNode t).getD v
                | _ => v)
              .ref (.ident text) (some normalized)
            else
              .ref (.ident text) none
    | _ => .ref name args

mutual

/-- Port of `visitJSDocType` (react-shape.ts lines 654-681); unlisted kinds
fall through unchanged (the `default` case). -/
def visitJSDocType (c : Ctx) : TsType → TsType
  | .jsdocAll => c.anyType
  | .jsdocUnknown => c.anyType
  | .jsdocOptional inner => visitJSDocType c inner
  | .jsdocNonNullable inner => visitJSDocType c inner
  | .jsdocNullable inner => .union [visitJSDocType c inner, .litNull]
  | .jsdocVariadic inner => .array (visitJSDocType c inner)
  | .jsdocFunction ps ret =>
      .fn (visitJSDocParamList c ps.length 0 ps) (ret.getD c.anyType)
  | .array elem => .array (visitJSDocType c elem)
  | .ref name args => visitRefCore c name args (visitTypeListOpt c args)
  | .jsdocTypeLiteral tags => .typeLit (visitPropTagList c tags)
  | t => t

/-- Visit each type argument of a reference (absent lists stay absent). -/
def visitTypeListOpt (c : Ctx) : Option (List TsType) → Option (List TsType)
  | none => none
  | some l => some (visitTypeList c l)

/-- Visit every type in a list. -/
def visitTypeList (c : Ctx) : List TsType → List TsType
  | [] => []
  | t :: ts => visitJSDocType c t :: visitTypeList c ts

/-- `node.parameters.map(visitJSDocParameter)` with the positional index the
source recovers via `indexOf`. -/
def visitJSDocParamList (c : Ctx) (total i : Nat) : List ParamDecl → List ParamDecl
  | [] => []
  | p :: ps => visitJSDocParameterM c total i p :: visitJSDocParamList c total (i + 1) ps

/-- Port of `visitJSDocParameter` (react-shape.ts lines 735-756): untyped
parameters pass through; a trailing variadic type makes the parameter a rest
parameter; a missing name is synthesized as `rest` or `argN`. -/
def visitJSDocParameterM (c : Ctx) (total idx : Nat) : ParamDecl → ParamDecl
  | .mk name? ddd q none hasInit => .mk name? ddd q none hasInit
  | .mk name? ddd q (some ty) hasInit =>
      let isRest :=
        (match ty with | .jsdocVariadic _ => true | _ => false) && idx == total - 1
      let name := name?.getD (.ident (if isRest then "rest" else "arg" ++ toString idx))
      let dotdotdot := if isRest then true else ddd
      .mk (some name) dotdotdot q (some (visitJSDocType c ty)) hasInit

/-- Members of a JSDoc type literal, one per property tag
(`visitJSDocTypeLiteral`, react-shape.ts lines 702-713). -/
def visitPropTagList (c : Ctx) : List PropTag → List Member
  | [] => []
  | t :: ts => visitJSDocPropertyLikeTag c t :: visitPropTagList c ts

/-- Port of `visitJSDocPropertyLikeTag` (react-shape.ts lines 715-733). The
source tests `ts.isJSDocOptionalType(node.typeExpression)` on the
JSDocTypeExpression wrapper node itself, which never has that kind, so
`optionalType` is always false. A qualified name contributes its leaf. -/
def visitJSDocPropertyLikeTag (c : Ctx) : PropTag → Member
  | .mk name none isBracketed =>
      let questionToken := isBracketed || false
      (match name with
       | .ident s => .propertySignature s questionToken c.anyType
       | .qualified _ r => .propertySignature r questionToken c.anyType)
  | .mk name (some te) isBracketed =>
      let type := visitJSDocType c te
      let optionalType := false
      let questionToken := isBracketed || optionalType
      (match name with
       | .ident s => .propertySignature s questionToken type
       | .qualified _ r => .propertySignature r questionToken type)

end

/-! ## jsdoc plugin: parameter annotation -/

/-- A `ts.JSDocParameterTag` as `visitParameters` reads it: the (entity)
name, the type inside the tag's type expression, and the bracket marker. -/
structure JSDocParamTag where
  name? : Option EntityName
  typeExpr? : Option TsType
  isBracketed : Bool

/-- `buildNestedType` (react-shape.ts lines 580-635) with explicit fuel.
Each recursive call extends the prefix by at least one character and fires
only when some tag name strictly extends the new prefix, so any fuel above
the total length of the tag names is never exhausted (see `buildNestedType`
for the entry point supplying such fuel). -/
def buildNestedTypeF (c : Ctx) : Nat → String → List JSDocParamTag → TsType
  | 0, _, _ => .typeLit []
  | fuel + 1, pre, allTags =>
      let childTags := allTags.filter (fun tag =>
        match tag.name? with
        | none => false
        | some n =>
            let tagName := getEntityNameText n
            strStartsWith tagName (pre ++ ".") &&
              !(strContainsChar (strDrop tagName (pre.length + 1)) '.'))
      let members := childTags.map (fun tag =>
        match tag.name? with
        | none => Member.propertySignature "" false c.anyType
        | some n =>
            let tagName := getEntityNameText n
            let propertyName := strDrop tagName (pre.length + 1)
            let fullPropertyPath := pre ++ "." ++ propertyName
            let hasNestedChildren := allTags.any (fun t =>
              match t.name? with
              | none => false
              | some tn => strStartsWith (getEntityNameText tn) (fullPropertyPath ++ "."))
            let propertyType :=
              if hasNestedChildren then
                buildNestedTypeF c fuel fullPropertyPath allTags
              else
                match tag.typeExpr? with
                | some te =>
                    let inner := match te with | .jsdocOptional t => t | _ => te
                    let visited := visitJSDocType c inner
                    match visited with
                    | .ref (.ident t) _ =>
                        (match primitiveKeywordNode t with
                         | some k => k
                         | none => (primitiveKeywordNode (strToLower t)).getD visited)
                    | _ => visited
                | none => c.anyType
            let isOptional := tag.isBracketed ||
              (match tag.typeExpr? with
               | some te => isJSDocOptionalTypeB te
               | none => false)
            Member.propertySignature propertyName isOptional propertyType)
      .typeLit members

/-- Fuel bound for `buildNestedTypeF`: one more than the total length of all
tag names, which exceeds any possible nesting depth. -/
def tagsNameFuel (tags : List JSDocParamTag) : Nat :=
  tags.foldl (fun acc t =>
    acc + (match t.name? with
           | some n => (getEntityNameText n).length
           | none => 0)) 1

/-- Entry point matching the source's `buildNestedType(prefix, allTags)`. -/
def buildNestedType (c : Ctx) (root : String) (allTags : List JSDocParamTag) : TsType :=
  buildNestedTypeF c (tagsNameFuel allTags) root allTags

/-- The predicate selecting the `rootTag` for a destructured parameter
(react-shape.ts lines 509-511): a tag whose name contains a dot. -/
def dottedTagPred (t : JSDocParamTag) : Bool :=
  match t.name? with
  | some n => strContainsChar (getEntityNameText n) '.'
  | none => false

/-- The predicate selecting a named parameter's direct tag (lines 540-542):
an identifier tag name equal to the parameter name, with a type expression. -/
def directTagPred (name : String) (t : JSDocParamTag) : Bool :=
  match t.name? with
  | some (.ident s) => s == name && t.typeExpr?.isSome
  | _ => false

/-- The predicate selecting a named parameter's nested tags (lines 544-547):
an identifier tag name starting with `name.`. -/
def nestedTagPred (name : String) (t : JSDocParamTag) : Bool :=
  match t.name? with
  | some (.ident s) => strStartsWith s (name ++ ".")
  | _ => false

/-- The root segment of the first dotted tag, when one exists (lines 509-513). -/
def firstDottedRoot? (tags : List JSDocParamTag) : Option String :=
  match tags.find? dottedTagPred with
  | some t =>
      match t.name? with
      | some n => some ((splitOnChar (getEntityNameText n) '.').headD "")
      | none => none
  | none => none

/-- The per-parameter body of `visitParameters` (react-shape.ts lines
504-575): skip explicitly typed parameters; give destructured parameters the
nested type rooted at the first dotted tag (or the `object` keyword); give
identifier parameters the type from their nested tags or direct tag, adding
a question token for a bracketed/optional tag only when the parameter has no
initializer. -/
def visitParam (c : Ctx) (allParamTags : List JSDocParamTag) (param : ParamDecl) : ParamDecl :=
  if param.type?.isSome then param
  else
    match param.name? with
    | some .objectPattern =>
        (match allParamTags.find? dottedTagPred with
         | some rootTag =>
             (match rootTag.name? with
              | some n =>
                  let rootName := (splitOnChar (getEntityNameText n) '.').headD ""
                  let ty := buildNestedType c rootName allParamTags
                  .mk param.name? param.dotDotDot param.question (some ty)
                    param.hasInitializer
              | none =>
                  .mk param.name? param.dotDotDot param.question (some .objectKw)
                    param.hasInitializer)
         | none =>
             .mk param.name? param.dotDotDot param.question (some .objectKw)
               param.hasInitializer)
    | some (.ident name) =>
        let directTag? := allParamTags.find? (directTagPred name)
        let nestedTags := allParamTags.filter (nestedTagPred name)
        let tq : Option TsType × Bool :=
          if !nestedTags.isEmpty then
            (some (buildNestedType c name allParamTags), param.question)
          else
            match directTag? with
            | some dt =>
                (match dt.typeExpr? with
                 | some te =>
                     let q :=
                       if !param.hasInitializer &&
                           (dt.isBracketed || isJSDocOptionalTypeB te) then true
                       else param.question
                     (some (visitJSDocType c te), q)
                 | none => (none, param.question))
            | none => (none, param.question)
        (match tq.1 with
         | none => param
         | some ty =>
             .mk param.name? param.dotDotDot tq.2 (some ty) param.hasInitializer)
    | _ => param

/-- Port of `visitParameters` (react-shape.ts lines 496-578): when the
declaration carries no JSDoc parameter tags the parameter list is returned
untouched, otherwise each parameter is rewritten by `visitParam`. -/
def visitParameters (c : Ctx) (allParamTags : List JSDocParamTag)
    (params : List ParamDecl) : List ParamDecl :=
  if allParamTags.isEmpty then params
  else params.map (visitParam c allParamTags)

/-- Port of `visitReturnType` (react-shape.ts lines 637-649): an existing
return annotation is never overwritten; otherwise the JSDoc return tag, when
present, is visited. -/
def visitReturnType (c : Ctx) (declaredType? : Option TsType)
    (jsdocReturnType? : Option TsType) : Option TsType :=
  match declaredType? with
  | some t => some t
  | none =>
      match jsdocReturnType? with
      | none => none
      | some r => some (visitJSDocType c r)

/-! ## react-shape plugin: expression and statement model -/

/-- The expression shapes the react-shape plugin distinguishes: call
expressions (with `expression.getText()` kept as a string, since the plugin
only applies regular expressions to it), object literals (with their
properties, read by the shape translator), and everything else. -/
inductive Expr where
  | call (calleeText : String) (args : List Expr)
  | objectLit (props : List (String × Expr))
  | ident (text : String)
  | other (text : String)

/-- Regex `/PropTypes.shape|Shape|Types.shape/` over the callee text
(`isPropTypesShapeCallExpression`, react-shape.ts lines 277-279); the `.`
matches one arbitrary character. -/
def isShapeRegexMatch (s : String) : Bool :=
  listHasDotPat "PropTypes".toList "shape".toList s.toList ||
    strContains s "Shape" ||
    listHasDotPat "Types".toList "shape".toList s.toList

/-- Top-level variable declarator: name text, span, optional explicit type,
optional initializer. -/
structure Declarator where
  name : String
  pos : Nat
  endPos : Nat
  type? : Option TsType
  init? : Option Expr

/-- The top-level statements the react-shape plugin distinguishes. `pos` is
the full start (including leading trivia), `endPos` the end offset, and a
variable statement additionally carries `getFullText()` (the statement text
with its leading trivia). -/
inductive Statement where
  | importDecl (moduleSpecifierText : String) (pos endPos : Nat)
  | varStmt (isExported : Bool) (declarators : List Declarator)
      (pos endPos : Nat) (fullText : String)
  | exportAssign (expr : Expr) (pos endPos : Nat)
  | typeAliasDecl (name : String) (pos endPos : Nat)
  | interfaceDecl (name : String) (pos endPos : Nat)
  | otherStmt (pos endPos : Nat)

/-- A parsed source file as the host hands it to the plugin. -/
structure SourceFileModel where
  fileName : String
  statements : List Statement
  text : String

/-- Import statements with their module-specifier text and end offset
(`sourceFile.statements.filter(ts.isImportDeclaration)`). -/
def importInfo? : Statement → Option (String × Nat)
  | .importDecl spec _ endPos => some (spec, endPos)
  | _ => none

/-- Name of a top-level interface or type-alias declaration
(react-shape.ts lines 83-85). -/
def typeOrInterfaceName? : Statement → Option String
  | .typeAliasDecl n _ _ => some n
  | .interfaceDecl n _ _ => some n
  | _ => none

/-- The gate at react-shape.ts lines 26-30: some import whose module
specifier text matches `/prop-types|react-validators/`. -/
def hasGateImport (f : SourceFileModel) : Bool :=
  (f.statements.filterMap importInfo?).any (fun i =>
    strContains i.1 "prop-types" || strContains i.1 "react-validators")

/-- Lines 32-35: `shouldAddPropTypesImport` starts true when no import
matches `/prop-types/`. -/
def initialShouldAddImport (f : SourceFileModel) : Bool :=
  !((f.statements.filterMap importInfo?).any (fun i => strContains i.1 "prop-types"))

/-! ## react-shape plugin: edits -/

/-- The structured content of each `updates.push` in the react-shape run,
in source order: the PropTypes import insertion, a type-alias insertion, the
declarator rewrite, the export split's delete and named-export insert, the
default-export replacement (whose recorded `length` field is exactly what
the source passes), and the default re-export insert. -/
inductive EditIntent where
  | insertImport (index : Nat)
  | insertTypeAlias (index : Nat) (name : String) (ty : TsType)
  | replaceVarDecl (index length : Nat) (name : String) (ty : TsType) (init : Expr)
  | deleteExportKeyword (index length : Nat)
  | insertNamedExport (index : Nat) (name : String)
  | replaceExportAssign (index length : Nat) (name : String) (ty : TsType) (init : Expr)
  | insertDefaultExport (index : Nat) (name : String)

/-- Port of `getShapeTypeNode` (react-shape.ts lines 298-315): the union of
`PropTypes.Requireable<Name>` and `Validator<Name>`. -/
def getShapeTypeNode (shapeName : String) : TsType :=
  .union
    [ .ref (.qualified (.ident "PropTypes") "Requireable")
        (some [.ref (.ident shapeName) none]),
      .ref (.ident "Validator")
        (some [.ref (.ident shapeName) none]) ]

/-- A very small reading of a PropTypes validator expression, used by the
spec-modelled shape translator below: its marker text and required flag. -/
def propTypeMarkerText : Expr → String
  | .call calleeText _ => calleeText
  | .ident t => t
  | .other t => t
  | .objectLit _ => ""

/-- Modelled from the spec: `getTypeFromPropTypesObjectLiteral` (the
react-props utility `./utils/react-props`, which is not under src/). Per
spec §4.2 (`parseShapeLiteral`) it yields an object type with one member per
declared property in declaration order, and per §8 scenario 1 a member is
optional unless the validator is marked required; primitive validators map
to the matching primitive keyword and anything unrecognized degrades to the
configured unknown alias. -/
def getTypeFromPropTypesObjectLiteral (anyT : TsType)
    (props : List (String × Expr)) : TsType :=
  .typeLit (props.map (fun p =>
    let marker := propTypeMarkerText p.2
    let required := strContains marker "isRequired"
    let ty :=
      if strContains marker "string" then TsType.stringKw
      else if strContains marker "number" then TsType.numberKw
      else if strContains marker "bool" then TsType.booleanKw
      else anyT
    Member.propertySignature p.1 (!required) ty))

/-- Port of `getTypeForTheShape` (react-shape.ts lines 252-275), reduced to
the aliased type: the translated object literal, wrapped in an array type
for the array-of-shapes pattern. -/
def getTypeForTheShapeTy (anyT : TsType) (shapeArgs : List Expr)
    (isArrayShapeType : Bool) : TsType :=
  let props :=
    match shapeArgs.head? with
    | some (.objectLit ps) => ps
    | _ => []
  let shapeTypeVariable := getTypeFromPropTypesObjectLiteral anyT props
  if isArrayShapeType then .array shapeTypeVariable else shapeTypeVariable

/-- The two updates of `splitVariableExport` (react-shape.ts lines 52-77):
delete `'export'.length + 1` characters at the first occurrence of
`export` in the statement's full text, and insert the named export at the
statement's end. (The source computes the occurrence with `indexOf`; the
export modifier guarantees one exists, so the `getD 0` default is
unreachable.) -/
def splitVariableExportIntents (stmtPos stmtEnd : Nat) (fullText : String)
    (shapeName : String) : List EditIntent :=
  let posOfExportKeyword := (firstIdxOf fullText "export").getD 0
  [ .deleteExportKeyword (stmtPos + posOfExportKeyword) ("export".length + 1),
    .insertNamedExport stmtEnd shapeName ]

/-- `insertPropTypesRequireableNode` (react-shape.ts lines 38-49): push
the import insert at offset 0 once, guarded by the mutable flag. -/
def insertRequireable (flag : Bool) : Bool × List EditIntent :=
  if flag then (false, [.insertImport 0]) else (flag, [])

/-- Ambient data of one run: the names of pre-existing type aliases and
interfaces, the last import's end offset, the file's base name, and the
unknown-type alias. -/
structure ShapeCtx where
  typeNames : List String
  lastImportEnd : Nat
  baseName : String
  anyT : TsType

/-- First `if` of the variable-statement branch (react-shape.ts lines
97-141): `const Name = PropTypes.shape({...})`. Pushes the PropTypes import
(once), the type alias (unless an identically named type or interface
already exists), the declarator rewrite carrying the union type, and the
export split when the statement has an export modifier. -/
def varShapeIntents (cfg : ShapeCtx) (flag isExported : Bool) (d : Declarator)
    (pos endPos : Nat) (fullText : String) (init : Expr) : Bool × List EditIntent :=
  match init with
  | .call calleeText args =>
      if (decide (args.length > 0) &&
          (match args.head? with
           | some (.objectLit _) => true
           | _ => false)) &&
         isShapeRegexMatch calleeText then
        let r := insertRequireable flag
        let aliasIntents :=
          if cfg.typeNames.contains d.name then []
          else [EditIntent.insertTypeAlias pos d.name
            (getTypeForTheShapeTy cfg.anyT args false)]
        let index := d.pos + 1
        let length := d.endPos - index
        let replIntents := [EditIntent.replaceVarDecl index length d.name
          (getShapeTypeNode d.name) init]
        let splitIntents :=
          if isExported then splitVariableExportIntents pos endPos fullText d.name
          else []
        (r.1, r.2 ++ aliasIntents ++ replIntents ++ splitIntents)
      else (flag, [])
  | _ => (flag, [])

/-- Second, independent `if` of the variable-statement branch (react-shape.ts
lines 143-167): `const Name = Types.arrayOf(Shape(...))`. Pushes the
PropTypes import (once), the array-wrapped type alias — with no
already-migrated guard and no declarator rewrite — and the export split
when the statement has an export modifier. -/
def varArrayIntents (cfg : ShapeCtx) (flag isExported : Bool) (d : Declarator)
    (pos endPos : Nat) (fullText : String) (init : Expr) : Bool × List EditIntent :=
  match init with
  | .call calleeText args =>
      if strContains calleeText "arrayOf" &&
         (match args.head? with
          | some (.call innerCallee _) => isShapeRegexMatch innerCallee
          | _ => false) then
        let r := insertRequireable flag
        let innerArgs :=
          match args.head? with
          | some (.call _ ia) => ia
          | _ => []
        let aliasIntents := [EditIntent.insertTypeAlias pos d.name
          (getTypeForTheShapeTy cfg.anyT innerArgs true)]
        let splitIntents :=
          if isExported then splitVariableExportIntents pos endPos fullText d.name
          else []
        (r.1, r.2 ++ aliasIntents ++ splitIntents)
      else (flag, [])
  | _ => (flag, [])

/-- Export-assignment branch (react-shape.ts lines 170-236):
`export default PropTypes.shape({...})` pushes the PropTypes import (once),
the alias insert after the last import, a replacement of the statement by a
typed constant declaration — the pushed record's `length` field is
`node.end`, exactly as the source passes it at line 197 — and the default
re-export insert. A call with no arguments is treated as not matching (the
source would fault reading `arguments[0]`). -/
def exportAssignIntents (cfg : ShapeCtx) (flag : Bool) (expr : Expr)
    (pos endPos : Nat) : Bool × List EditIntent :=
  match expr with
  | .call calleeText args =>
      if (match args.head? with
          | some (.objectLit _) => true
          | _ => false) &&
         isShapeRegexMatch calleeText then
        let shapeName := (splitOnChar cfg.baseName '.').headD ""
        let r := insertRequireable flag
        (r.1, r.2 ++
          [ EditIntent.insertTypeAlias cfg.lastImportEnd shapeName
              (getTypeForTheShapeTy cfg.anyT args false),
            EditIntent.replaceExportAssign pos endPos shapeName
              (getShapeTypeNode shapeName) expr,
            EditIntent.insertDefaultExport endPos shapeName ])
      else (flag, [])
  | _ => (flag, [])

/-- The loop body of `reactShapePlugin.run` (react-shape.ts lines 87-237)
for one statement: the updates it pushes, in push order, together with the
resulting `shouldAddPropTypesImport` flag. A variable statement reads only
`declarationList.declarations[0]` and runs its two independent pattern
branches; an export assignment runs the default-export branch. -/
def statementIntents (cfg : ShapeCtx) (flag : Bool) : Statement → Bool × List EditIntent
  | .varStmt isExported decls pos endPos fullText =>
      (match decls.head? with
       | none => (flag, [])
       | some d =>
           match d.init?, d.type? with
           | some init, none =>
               let step1 := varShapeIntents cfg flag isExported d pos endPos fullText init
               let step2 :=
                 varArrayIntents cfg step1.1 isExported d pos endPos fullText init
               (step2.1, step1.2 ++ step2.2)
           | _, _ => (flag, []))
  | .exportAssign expr pos endPos => exportAssignIntents cfg flag expr pos endPos
  | _ => (flag, [])

/-- Threads the flag and appends each statement's pushes, as the single
mutable `updates` array does in the source. -/
def collectIntentsStep (cfg : ShapeCtx) (acc : Bool × List EditIntent)
    (node : Statement) : Bool × List EditIntent :=
  let r := statementIntents cfg acc.1 node
  (r.1, acc.2 ++ r.2)

/-- All updates of one run over the statement list, in push order. -/
def collectIntents (cfg : ShapeCtx) (flag0 : Bool) (stmts : List Statement) :
    Bool × List EditIntent :=
  stmts.foldl (collectIntentsStep cfg) (flag0, [])

/-! ## Rendering and the patch engine -/

/-- Printed entity names (`A.B.C`). -/
def printEntityName : EntityName → String
  | .ident s => s
  | .qualified l r => printEntityName l ++ "." ++ r

mutual

/-- The printed text of a synthesized type node. The TypeScript printer is
an external collaborator; this renders the node shapes the plugins
synthesize the way that printer does (claims about edit records are stated
on `EditIntent`, which carries the synthesized structure itself). -/
def printType : TsType → String
  | .stringKw => "string"
  | .numberKw => "number"
  | .booleanKw => "boolean"
  | .symbolKw => "symbol"
  | .objectKw => "object"
  | .anyKw => "any"
  | .litNull => "null"
  | .ref n args =>
      printEntityName n ++
        (match args with
         | none => ""
         | some [] => ""
         | some l => "<" ++ strJoin ", " (printTypeList l) ++ ">")
  | .array e => printType e ++ "[]"
  | .union l => strJoin " | " (printTypeList l)
  | .fn ps ret =>
      "(" ++ strJoin ", " (printParamList ps) ++ ") => " ++ printType ret
  | .typeLit [] => "\x7b\x7d"
  | .typeLit ms => "\x7b " ++ strJoin " " (printMemberList ms) ++ " \x7d"
  | .jsdocAll => "*"
  | .jsdocUnknown => "?"
  | .jsdocOptional inner => printType inner ++ "="
  | .jsdocNonNullable inner => "!" ++ printType inner
  | .jsdocNullable inner => "?" ++ printType inner
  | .jsdocVariadic inner => "..." ++ printType inner
  | .jsdocFunction ps ret =>
      "function(" ++ strJoin ", " (printParamList ps) ++ ")" ++
        (match ret with
         | some r => ": " ++ printType r
         | none => "")
  | .jsdocTypeLiteral _ => "\x7b\x7d"
  | .otherKind _ => ""

/-- Printed type list, in order. -/
def printTypeList : List TsType → List String
  | [] => []
  | t :: ts => printType t :: printTypeList ts

/-- Printed parameter list, in order. -/
def printParamList : List ParamDecl → List String
  | [] => []
  | .mk name? ddd q ty? _ :: ps =>
      ((if ddd then "..." else "") ++
        (match name? with
         | some (.ident s) => s
         | some .objectPattern => "\x7b\x7d"
         | some .arrayPattern => "[]"
         | none => "") ++
        (if q then "?" else "") ++
        (match ty? with
         | some t => ": " ++ printType t
         | none => "")) :: printParamList ps

/-- Printed member list of a type literal, each member `;`-terminated. -/
def printMemberList : List Member → List String
  | [] => []
  | .propertySignature n opt t :: ms =>
      (n ++ (if opt then "?" else "") ++ ": " ++ printType t ++ ";") :: printMemberList ms
  | .indexSignature p k v :: ms =>
      ("[" ++ p ++ ": " ++ printType k ++ "]: " ++ printType v ++ ";") :: printMemberList ms

end

mutual

/-- The printed text of an expression node (used only for the replacement
texts; the react-shape plugin re-prints the original initializer). -/
def printExpr : Expr → String
  | .call calleeText args =>
      calleeText ++ "(" ++ strJoin ", " (printExprList args) ++ ")"
  | .objectLit [] => "\x7b\x7d"
  | .objectLit props => "\x7b " ++ strJoin ", " (printPropList props) ++ " \x7d"
  | .ident t => t
  | .other t => t

/-- Printed argument list, in order. -/
def printExprList : List Expr → List String
  | [] => []
  | e :: es => printExpr e :: printExprList es

/-- Printed object-literal properties, in order. -/
def printPropList : List (String × Expr) → List String
  | [] => []
  | (n, e) :: ps => (n ++ ": " ++ printExpr e) :: printPropList ps

end

/-- The kind tag of a `SourceTextUpdate`. -/
inductive UpdateKind where
  | insert
  | del
  | replace
deriving Repr, DecidableEq

/-- An edit record as handed to the patch engine: kind, offset into the
original buffer, covered length (0 for inserts) and replacement text (empty
for deletes). -/
structure SourceTextUpdate where
  kind : UpdateKind
  index : Nat
  length : Nat
  text : String
deriving Repr, DecidableEq

/-- The text of each pushed update: the synthesized node printed (with the
source's per-line trailing-space strip, which is the identity on these
texts) plus the surrounding newlines the source concatenates. -/
def renderIntent : EditIntent → SourceTextUpdate
  | .insertImport index =>
      ⟨.insert, index, 0, "import PropTypes from \"prop-types\";\n"⟩
  | .insertTypeAlias index name ty =>
      ⟨.insert, index, 0, "\n\ntype " ++ name ++ " = " ++ printType ty ++ ";"⟩
  | .replaceVarDecl index length name ty init =>
      ⟨.replace, index, length, name ++ ": " ++ printType ty ++ " = " ++ printExpr init⟩
  | .deleteExportKeyword index length =>
      ⟨.del, index, length, ""⟩
  | .insertNamedExport index name =>
      ⟨.insert, index, 0, "\nexport \x7b " ++ name ++ " \x7d;"⟩
  | .replaceExportAssign index length name ty init =>
      ⟨.replace, index, length,
        "\nconst " ++ name ++ ": " ++ printType ty ++ " = " ++ printExpr init ++ ";"⟩
  | .insertDefaultExport index name =>
      ⟨.insert, index, 0, "\nexport default " ++ name ++ ";"⟩

/-- One walk over the original buffer: copy the span up to the next edit,
splice its text, and skip the covered length. -/
def spliceUpdates (orig : List Char) : Nat → List SourceTextUpdate → List Char
  | cursor, [] => orig.drop cursor
  | cursor, u :: rest =>
      ((orig.drop cursor).take (u.index - cursor)) ++ u.text.toList ++
        spliceUpdates orig (u.index + u.length) rest

/-- Insert an update after every earlier update with index ≤ its own, so the
submission order is kept among equal indices. -/
def insertUpdateSorted (u : SourceTextUpdate) : List SourceTextUpdate → List SourceTextUpdate
  | [] => [u]
  | v :: vs => if v.index ≤ u.index then v :: insertUpdateSorted u vs else u :: v :: vs

/-- Stable ascending sort by `index` (insertion sort). -/
def sortUpdates (updates : List SourceTextUpdate) : List SourceTextUpdate :=
  updates.foldl (fun acc u => insertUpdateSorted u acc) []

/-- Modelled from the spec: the Patch Engine `updateSourceText`
(`../utils/updateSourceText`, not under src/). Per §4.1 the edits are sorted
by `index` ascending with a stable tie-break (inserts at a shared boundary
keep submission order) and applied in one walk over the original buffer,
copying unedited spans verbatim. -/
def updateSourceText (text : String) (updates : List SourceTextUpdate) : String :=
  String.mk (spliceUpdates text.toList 0 (sortUpdates updates))

/-- Port of `reactShapePlugin.run` (react-shape.ts lines 23-244): gate on a
`prop-types`/`react-validators` import (returning `undefined`, i.e. `none`,
when absent), collect the loop's updates, apply the patch engine, strip
trailing spaces from all lines, and restore the final newline when the
input had one and the cleaned text lost it. -/
def reactShapeRun (anyAlias? : Option String) (f : SourceFileModel) : Option String :=
  let importDecls := f.statements.filterMap importInfo?
  if !hasGateImport f then none
  else
    let cfg : ShapeCtx :=
      { typeNames := f.statements.filterMap typeOrInterfaceName?
        lastImportEnd := ((importDecls.getLast?).map (·.2)).getD 0
        baseName := basename f.fileName
        anyT := mkAnyType anyAlias? }
    let intents := (collectIntents cfg (initialShouldAddImport f) f.statements).2
    let updates := intents.map renderIntent
    let result := updateSourceText f.text updates
    let cleaned := stripTrailingSpaces result
    some (if strEndsWith f.text "\n" && !(strEndsWith cleaned "\n") then cleaned ++ "\n"
          else cleaned)

/-- The text the host ends up with: the run's result, or the unchanged
input when the run returns `undefined`. -/
def reactShapeOutput (anyAlias? : Option String) (f : SourceFileModel) : String :=
  (reactShapeRun anyAlias? f).getD f.text

/-! ## Concrete fixtures used by the claims -/

/-- `export default Shape({ a: 1 })` as the second statement of a file whose
single import ends at offset 41: the call expression. -/
def c3Expr : Expr :=
  .call "Shape" [.objectLit [("a", .other "1")]]

/-- The default-export statement spanning offsets 41 (full start, before its
leading newline) to 75. -/
def c3Stmt : Statement :=
  .exportAssign c3Expr 41 75

/-- Run context for the `c3Stmt` file (named `Foo.js`, last import ends at
41, no pre-existing aliases). -/
def c3Cfg : ShapeCtx :=
  ⟨[], 41, "Foo.js", .anyKw⟩

/-- Full text of an exported shape statement whose leading comment mentions
`export`: `getFullText()` of the statement, starting at the statement's
`pos`. The comment occurrence of `export` starts at offset 4, the actual
keyword at offset 12. -/
def c4FullText : String :=
  "\n// export!\nexport const Bar = Shape(\x7b a: 1 \x7d);"

/-- The declarator `Bar = Shape({ a: 1 })` of the `c4FullText` statement. -/
def c4Decl : Declarator :=
  ⟨"Bar", 69, 96, none, .call "Shape" [.objectLit [("a", .other "1")]] |> some⟩

/-- The exported variable statement with `c4FullText`, spanning 50 to 97. -/
def c4Stmt : Statement :=
  .varStmt true [c4Decl] 50 97 c4FullText

/-- Run context for the `c4Stmt` file. -/
def c4Cfg : ShapeCtx :=
  ⟨[], 41, "Bar.js", .anyKw⟩

/-- Full text of an ordinary exported shape statement (no comment trivia):
the keyword sits at offset 1, after the leading newline. -/
def c4wFullText : String :=
  "\nexport const Baz = Shape(\x7b b: 1 \x7d);"

/-- The declarator `Baz = Shape({ b: 1 })` of the `c4wFullText` statement. -/
def c4wDecl : Declarator :=
  ⟨"Baz", 44, 66, none, some (.call "Shape" [.objectLit [("b", .other "1")]])⟩

/-- The exported statement for the witness of the amended C4, spanning
30 to 67. -/
def c4wStmt : Statement :=
  .varStmt true [c4wDecl] 30 67 c4wFullText

/-- The initializer `Types.arrayOf(Shape({ a: PropTypes.string }))`. -/
def c6Init : Expr :=
  .call "Types.arrayOf" [.call "Shape" [.objectLit [("a", .other "PropTypes.string")]]]

/-- The output of a first react-shape run over
`import { Shape } from 'react-validators';` plus
`const X = Types.arrayOf(Shape({ a: PropTypes.string }));`, re-parsed: the
first run inserted the PropTypes import and the alias `type X = ...[]` but
left the declarator untyped. -/
def c6File : SourceFileModel where
  fileName := "X.js"
  statements :=
    [ .importDecl "\"prop-types\"" 0 35,
      .importDecl "'react-validators'" 35 77,
      .typeAliasDecl "X" 77 106,
      .varStmt false [⟨"X", 112, 163, none, some c6Init⟩] 106 164
        "\nconst X = Types.arrayOf(Shape(\x7b a: PropTypes.string \x7d));" ]
  text :=
    "import PropTypes from \"prop-types\";\nimport \x7b Shape \x7d from 'react-validators';\n\ntype X = \x7b a?: string; \x7d[];\nconst X = Types.arrayOf(Shape(\x7b a: PropTypes.string \x7d));\n"

/-- The run context `reactShapeRun` builds for `c6File`. -/
def c6Cfg : ShapeCtx :=
  ⟨["X"], 77, "X.js", .anyKw⟩

/-- The dotted tags `@param {string} opts.name` / `@param {number} opts.age`. -/
def c8Tags : List JSDocParamTag :=
  [ ⟨some (.qualified (.ident "opts") "name"), some .stringKw, false⟩,
    ⟨some (.qualified (.ident "opts") "age"), some .numberKw, false⟩ ]

/-- An untyped destructured parameter `{ name, age }`. -/
def c8Param : ParamDecl :=
  .mk (some .objectPattern) false false none false

/-- A bracketed optional tag `@param {string=} [x]` for parameter `x`. -/
def c9Tags : List JSDocParamTag :=
  [⟨some (.ident "x"), some (.jsdocOptional .stringKw), true⟩]

/-- Parameter `x` with a default initializer and no annotation. -/
def c9ParamInit : ParamDecl :=
  .mk (some (.ident "x")) false false none true

/-- Parameter `x` without initializer and without annotation. -/
def c9ParamNoInit : ParamDecl :=
  .mk (some (.ident "x")) false false none false

/-! ## Claims -/

/-- C1: for every input file with no import matching `prop-types` or
`react-validators` (hence in particular no recognizable shape pattern), the
transform's output text equals the input text exactly, byte for byte: the
run returns `undefined` at its import gate, so the host keeps the original
buffer with all whitespace and the trailing-newline state intact. -/
theorem claim_C1_no_pattern_no_change (anyAlias? : Option String) (f : SourceFileModel)
    (h : hasGateImport f = false) :
    reactShapeRun anyAlias? f = none ∧ reactShapeOutput anyAlias? f = f.text := by
  constructor
  · simp [reactShapeRun, h]
  · simp [reactShapeOutput, reactShapeRun, h]

/-- Witness for C1 at a concrete file with no matching import (and a line
with trailing whitespace, which is preserved untouched). -/
theorem claim_C1_witness :
    hasGateImport ⟨"a.js", [.otherStmt 0 5], "hello \n"⟩ = false ∧
    reactShapeOutput none ⟨"a.js", [.otherStmt 0 5], "hello \n"⟩ = "hello \n" :=
  ⟨rfl, (claim_C1_no_pattern_no_change none ⟨"a.js", [.otherStmt 0 5], "hello \n"⟩ rfl).2⟩

/-- C2: for every documentary reference `Object<K, V>` with `K` the string
or number keyword, parsing synthesizes an index-signature type literal
(`{ [s: string]: V }` resp. `{ [n: number]: V }`) rather than a generic
two-argument reference, for every alias table — the recognition happens
before and independently of the `typeMap` lookup. -/
theorem claim_C2_object_index_signature (c : Ctx) (V : TsType) :
    visitJSDocType c (.ref (.ident "Object") (some [.stringKw, V])) =
      .typeLit [.indexSignature "s" (.ref (.ident "string") (some [])) V] ∧
    visitJSDocType c (.ref (.ident "Object") (some [.numberKw, V])) =
      .typeLit [.indexSignature "n" (.ref (.ident "number") (some [])) V] := by
  constructor <;>
    simp [visitJSDocType, visitRefCore, isJSDocIndexSignatureShape,
      visitJSDocIndexSignatureNode]

/-- C5: existing explicit annotations are never replaced or removed — a
parameter with a type annotation passes through `visitParam` unchanged, a
declared return type is returned as-is by `visitReturnType`, and a
top-level variable statement whose first declarator already carries a type
produces no edits at all in the shape transform. -/
theorem claim_C5_existing_annotations_preserved
    (c : Ctx) (tags : List JSDocParamTag) (p : ParamDecl) (t u : TsType)
    (jr : Option TsType) (cfg : ShapeCtx) (flag ex : Bool) (d : Declarator)
    (ds : List Declarator) (pos endPos : Nat) (ft : String)
    (hp : p.type? = some t) (hd : d.type? = some u) :
    visitParam c tags p = p ∧
    visitReturnType c (some t) jr = some t ∧
    statementIntents cfg flag (.varStmt ex (d :: ds) pos endPos ft) = (flag, []) := by
  refine ⟨?_, rfl, ?_⟩
  · simp [visitParam, hp]
  · cases hi : d.init? <;> simp [statementIntents, hd, hi]

/-- Any declarator rewrite pushed by the shape branch targets exactly the
span from `d.pos + 1` to `d.endPos` of the first declarator. -/
theorem mem_varShapeIntents_replaceVarDecl
    {cfg : ShapeCtx} {flag ex : Bool} {d : Declarator} {pos endPos : Nat}
    {ft : String} {init0 init : Expr} {i l : Nat} {n : String} {ty : TsType} :
    EditIntent.replaceVarDecl i l n ty init ∈
      (varShapeIntents cfg flag ex d pos endPos ft init0).2 →
    i = d.pos + 1 ∧ l = d.endPos - (d.pos + 1) := by
  intro hmem
  rcases init0 with ⟨c0, args⟩ | props | t | t
  · simp only [varShapeIntents, insertRequireable, splitVariableExportIntents] at hmem
    split at hmem
    · split at hmem <;> split at hmem <;> split at hmem <;> simp_all
    · simp at hmem
  · simp [varShapeIntents] at hmem
  · simp [varShapeIntents] at hmem
  · simp [varShapeIntents] at hmem

/-- The array-of-shapes branch never pushes a declarator rewrite. -/
theorem not_mem_varArrayIntents_replaceVarDecl
    {cfg : ShapeCtx} {flag ex : Bool} {d : Declarator} {pos endPos : Nat}
    {ft : String} {init0 init : Expr} {i l : Nat} {n : String} {ty : TsType} :
    EditIntent.replaceVarDecl i l n ty init ∉
      (varArrayIntents cfg flag ex d pos endPos ft init0).2 := by
  intro hmem
  rcases init0 with ⟨c0, args⟩ | props | t | t
  · simp only [varArrayIntents, insertRequireable, splitVariableExportIntents] at hmem
    split at hmem
    · split at hmem <;> split at hmem <;> simp_all
    · simp at hmem
  · simp [varArrayIntents] at hmem
  · simp [varArrayIntents] at hmem
  · simp [varArrayIntents] at hmem

/-- C10: the shape-extraction transform examines only the first declarator
of a top-level variable statement. Processing a multi-declarator statement
produces exactly the edits of the statement restricted to its first
declarator, and every declarator rewrite it pushes covers only the first
declarator's span, so second and later declarators are never aliased,
retyped, or export-split and their text is untouched. -/
theorem claim_C10_only_first_declarator
    (cfg : ShapeCtx) (flag ex : Bool) (d : Declarator) (ds : List Declarator)
    (pos endPos : Nat) (ft : String) (h : d.pos + 1 ≤ d.endPos) :
    statementIntents cfg flag (.varStmt ex (d :: ds) pos endPos ft) =
      statementIntents cfg flag (.varStmt ex [d] pos endPos ft) ∧
    ∀ i l n ty init,
      EditIntent.replaceVarDecl i l n ty init ∈
          (statementIntents cfg flag (.varStmt ex (d :: ds) pos endPos ft)).2 →
        i = d.pos + 1 ∧ i + l = d.endPos := by
  constructor
  · rfl
  · intro i l n ty init hmem
    obtain ⟨dn, dp, de, dt, di⟩ := d
    simp only [Declarator.pos, Declarator.endPos] at h ⊢
    cases di with
    | none => cases dt <;> simp [statementIntents] at hmem
    | some init0 =>
      cases dt with
      | some t => simp [statementIntents] at hmem
      | none =>
        simp only [statementIntents] at hmem
        rcases List.mem_append.mp hmem with hmem | hmem
        · have hfields := mem_varShapeIntents_replaceVarDecl hmem
          simp only [Declarator.pos, Declarator.endPos] at hfields
          omega
        · exact absurd hmem not_mem_varArrayIntents_replaceVarDecl

/-- Witness for C10: a two-declarator statement whose second declarator is
itself a shape call is processed exactly like the statement with only its
first declarator. -/
theorem claim_C10_witness :
    statementIntents ⟨[], 0, "a.js", .anyKw⟩ false
        (.varStmt false
          [⟨"A", 10, 50, none, some (.call "PropTypes.shape" [.objectLit []])⟩,
           ⟨"B", 52, 90, none, some (.call "PropTypes.shape" [.objectLit []])⟩]
          0 91 "const A = PropTypes.shape(\x7b\x7d), B = PropTypes.shape(\x7b\x7d);") =
      statementIntents ⟨[], 0, "a.js", .anyKw⟩ false
        (.varStmt false
          [⟨"A", 10, 50, none, some (.call "PropTypes.shape" [.objectLit []])⟩]
          0 91 "const A = PropTypes.shape(\x7b\x7d), B = PropTypes.shape(\x7b\x7d);") :=
  (claim_C10_only_first_declarator _ _ _ _ _ _ _ _ (by decide)).1

/-- C3: evaluation of the default-export branch at the concrete file
`Foo.js` with one import ending at 41 and `export default Shape({ a: 1 })`
spanning 41 to 75. The alias is named from the base name, the replacement
carries the union type with the original call as initializer, and the
default re-export is appended — but the replacement record's `length` field
is the statement's *end offset* 75 (the source pushes `length: node.end` at
line 197, unlike its own `end - index` arithmetic at lines 131-132), so the
recorded range `[41, 41 + 75)` overshoots the statement end 75 instead of
covering exactly the statement (length 34). This evidences the code bug
against the claim's "replaces the default-export statement". -/
theorem claim_C3_replace_length_slip :
    (statementIntents c3Cfg false c3Stmt).2 =
      [ .insertTypeAlias 41 "Foo" (.typeLit [.propertySignature "a" true .anyKw]),
        .replaceExportAssign 41 75 "Foo" (getShapeTypeNode "Foo") c3Expr,
        .insertDefaultExport 75 "Foo" ] ∧
    41 + 75 > 75 ∧
    75 - 41 ≠ 75 :=
  ⟨rfl, by decide, by decide⟩

/-- C4 (counterexample): the claim fails as stated. For an exported shape
statement whose leading comment contains the string `export`, the emitted
delete targets `pos + indexOf(fullText, 'export')` — here offset 4, inside
the comment — and its range `[54, 61)` ends before the actual export
keyword, which sits at offset 12 (absolute 62): the export keyword is not
removed, seven characters of the comment are. -/
theorem claim_C4_counterexample :
    (statementIntents c4Cfg false c4Stmt).2 =
      [ .insertTypeAlias 50 "Bar" (.typeLit [.propertySignature "a" true .anyKw]),
        .replaceVarDecl 70 26 "Bar" (getShapeTypeNode "Bar")
          (.call "Shape" [.objectLit [("a", .other "1")]]),
        .deleteExportKeyword 54 7,
        .insertNamedExport 97 "Bar" ] ∧
    extractSub c4FullText 12 7 = "export " ∧
    extractSub c4FullText 4 7 = "export!" ∧
    54 + 7 ≤ 50 + 12 :=
  ⟨rfl, rfl, rfl, by decide⟩

/-- C4 (amended): for every exported top-level shape-call variable statement
without an explicit type, the transform deletes seven characters at the
*first occurrence* of the string `export` in the statement's full
(leading-trivia-inclusive) text — which is the export keyword and its
separator whenever no earlier trivia mentions `export` — and inserts a
separate `export { Name };` statement immediately after the statement's
end. -/
theorem claim_C4_amended_export_split (cfg : ShapeCtx) (flag : Bool)
    (d : Declarator) (ds : List Declarator) (pos endPos : Nat) (ft : String)
    (calleeText : String) (props : List (String × Expr)) (rest : List Expr) (k : Nat)
    (hinit : d.init? = some (.call calleeText (.objectLit props :: rest)))
    (hty : d.type? = none)
    (hshape : isShapeRegexMatch calleeText = true)
    (hk : firstIdxOf ft "export" = some k) :
    EditIntent.deleteExportKeyword (pos + k) 7 ∈
        (statementIntents cfg flag (.varStmt true (d :: ds) pos endPos ft)).2 ∧
    EditIntent.insertNamedExport endPos d.name ∈
        (statementIntents cfg flag (.varStmt true (d :: ds) pos endPos ft)).2 ∧
    renderIntent (.insertNamedExport endPos d.name) =
      ⟨.insert, endPos, 0, "\nexport \x7b " ++ d.name ++ " \x7d;"⟩ := by
  obtain ⟨dn, dp, de, dt, di⟩ := d
  simp only [Declarator.init?, Declarator.type?] at hinit hty
  subst hinit hty
  have hlen : "export".length = 6 := by decide
  refine ⟨?_, ?_, rfl⟩ <;>
    simp [statementIntents, varShapeIntents, varArrayIntents, hshape,
      splitVariableExportIntents, hk, insertRequireable, Declarator.name, hlen]

/-- Witness for the amended C4: in the ordinary case the deleted range is
exactly the keyword and its trailing space, and `export { Baz };` is
inserted at the statement end. -/
theorem claim_C4_witness :
    EditIntent.deleteExportKeyword (30 + 1) 7 ∈
        (statementIntents c4Cfg false c4wStmt).2 ∧
    EditIntent.insertNamedExport 67 "Baz" ∈
        (statementIntents c4Cfg false c4wStmt).2 ∧
    renderIntent (.insertNamedExport 67 "Baz") =
      ⟨.insert, 67, 0, "\nexport \x7b Baz \x7d;"⟩ ∧
    extractSub c4wFullText 1 7 = "export " :=
  ⟨(claim_C4_amended_export_split c4Cfg false c4wDecl [] 30 67 c4wFullText "Shape"
      [("b", .other "1")] [] 1 rfl rfl rfl rfl).1,
   (claim_C4_amended_export_split c4Cfg false c4wDecl [] 30 67 c4wFullText "Shape"
      [("b", .other "1")] [] 1 rfl rfl rfl rfl).2.1,
   (claim_C4_amended_export_split c4Cfg false c4wDecl [] 30 67 c4wFullText "Shape"
      [("b", .other "1")] [] 1 rfl rfl rfl rfl).2.2,
   rfl⟩

/-- C6: the shape transform is not idempotent. `c6File` is the re-parsed
output of a first run over a file holding
`const X = Types.arrayOf(Shape({ a: PropTypes.string }));` with a
react-validators import: the alias `type X` is present and the declarator
is still untyped (the arrayOf branch never rewrites it). A second run still
emits an alias insert for `X` — the arrayOf branch has no already-migrated
guard — so it returns a text different from its input and run-twice differs
from run-once. -/
theorem claim_C6_second_run_still_edits :
    hasGateImport c6File = true ∧
    c6File.statements.filterMap typeOrInterfaceName? = ["X"] ∧
    (collectIntents c6Cfg (initialShouldAddImport c6File) c6File.statements).2 =
      [.insertTypeAlias 106 "X"
        (.array (.typeLit [.propertySignature "a" true .stringKw]))] ∧
    reactShapeRun none c6File ≠ some c6File.text :=
  ⟨rfl, rfl, rfl, by decide⟩

/-- C7 (counterexample): the claim fails as stated. Under the default alias
table the reference `Object<string, Foo>` renames to the primitive keyword
name `object`, yet parsing yields the index-signature literal — not the
`object` keyword — and the supplied type arguments are not dropped: the
index-signature special case is checked before the alias-table rename. -/
theorem claim_C7_counterexample :
    primitiveKeywordNode (applyTypeMapName defaultTypeMap "Object") = some .objectKw ∧
    visitJSDocType ⟨.anyKw, defaultTypeMap⟩
        (.ref (.ident "Object") (some [.stringKw, .ref (.ident "Foo") none])) =
      .typeLit [.indexSignature "s" (.ref (.ident "string") (some []))
        (.ref (.ident "Foo") none)] ∧
    visitJSDocType ⟨.anyKw, defaultTypeMap⟩
        (.ref (.ident "Object") (some [.stringKw, .ref (.ident "Foo") none])) ≠
      .objectKw := by
  refine ⟨rfl, rfl, ?_⟩
  intro h
  exact absurd
    (show TsType.typeLit [.indexSignature "s" (.ref (.ident "string") (some []))
        (.ref (.ident "Foo") none)] = .objectKw from h)
    (by simp)

/-- C7 (amended): for every documentary named reference that does not match
the `Object<string|number, V>` index-signature form, when its name resolves
through the alias table to one of the fixed primitive keywords, parsing
yields exactly that primitive keyword type and any supplied type arguments
are dropped. -/
theorem claim_C7_amended_primitive_after_rename (c : Ctx) (name : String)
    (args : Option (List TsType)) (k : TsType)
    (hidx : isJSDocIndexSignatureShape (.ident name) args = false)
    (hk : primitiveKeywordNode (applyTypeMapName c.typeMap name) = some k) :
    visitJSDocType c (.ref (.ident name) args) = k := by
  show visitRefCore c (.ident name) args (visitTypeListOpt c args) = k
  unfold visitRefCore
  simp only [applyTypeMapName] at hk
  simp [hidx, hk]

/-- Witness for the amended C7: `String<Foo>` renames to `string` and parses
to the `string` keyword with its type argument dropped. -/
theorem claim_C7_witness :
    isJSDocIndexSignatureShape (.ident "String") (some [.ref (.ident "Foo") none]) =
      false ∧
    primitiveKeywordNode (applyTypeMapName defaultTypeMap "String") = some .stringKw ∧
    visitJSDocType ⟨.anyKw, defaultTypeMap⟩
        (.ref (.ident "String") (some [.ref (.ident "Foo") none])) = .stringKw :=
  ⟨rfl, rfl, claim_C7_amended_primitive_after_rename ⟨.anyKw, defaultTypeMap⟩
    "String" (some [.ref (.ident "Foo") none]) .stringKw rfl rfl⟩

/-- C8: a destructured (object-pattern) parameter without an explicit type
receives the nested inline object type built from the dotted tag group
rooted at the first dotted tag's root segment, and falls back to the
generic `object` keyword when no dotted tag exists; the concrete tag pair
`opts.name : string` / `opts.age : number` builds
`{ name: string; age: number }`. -/
theorem claim_C8_destructured_parameter (c : Ctx) (tags : List JSDocParamTag)
    (p : ParamDecl) (hty : p.type? = none) (hname : p.name? = some .objectPattern) :
    (∀ r, firstDottedRoot? tags = some r →
      visitParam c tags p =
        .mk p.name? p.dotDotDot p.question (some (buildNestedType c r tags))
          p.hasInitializer) ∧
    (firstDottedRoot? tags = none →
      visitParam c tags p =
        .mk p.name? p.dotDotDot p.question (some .objectKw) p.hasInitializer) ∧
    buildNestedType c "opts" c8Tags =
      .typeLit [.propertySignature "name" false .stringKw,
                .propertySignature "age" false .numberKw] := by
  refine ⟨?_, ?_, rfl⟩
  · intro r hr
    unfold firstDottedRoot? at hr
    cases hfind : tags.find? dottedTagPred with
    | none => rw [hfind] at hr; simp at hr
    | some t =>
        rw [hfind] at hr
        dsimp only at hr
        cases hn : t.name? with
        | none => rw [hn] at hr; simp at hr
        | some nm =>
            rw [hn] at hr
            simp only [Option.some.injEq, List.headD_eq_head?_getD] at hr
            simp [visitParam, hty, hname, hfind, hn, hr]
  · intro hr
    unfold firstDottedRoot? at hr
    cases hfind : tags.find? dottedTagPred with
    | none => simp [visitParam, hty, hname, hfind]
    | some t =>
        rw [hfind] at hr
        dsimp only at hr
        cases hn : t.name? with
        | none => simp [visitParam, hty, hname, hfind, hn]
        | some nm => rw [hn] at hr; simp at hr

/-- Witness for C8 at the spec's concrete scenario: the parameter's
synthesized type is the inline object `{ name: string; age: number }`. -/
theorem claim_C8_witness :
    firstDottedRoot? c8Tags = some "opts" ∧
    visitParam ⟨.anyKw, defaultTypeMap⟩ c8Tags c8Param =
      .mk (some .objectPattern) false false
        (some (.typeLit [.propertySignature "name" false .stringKw,
                         .propertySignature "age" false .numberKw])) false := by
  refine ⟨rfl, ?_⟩
  exact (claim_C8_destructured_parameter ⟨.anyKw, defaultTypeMap⟩ c8Tags c8Param
    rfl rfl).1 "opts" rfl

/-- C9: for a named parameter typed from a direct documentary tag, the
optional question token is added only when the parameter carries no default
initializer; a bracketed or optional-marked tag on a parameter with an
initializer leaves the parameter's optionality exactly as it was. -/
theorem claim_C9_initializer_blocks_question (c : Ctx) (tags : List JSDocParamTag)
    (p : ParamDecl) (n : String) (dt : JSDocParamTag) (te : TsType)
    (hty : p.type? = none) (hname : p.name? = some (.ident n))
    (hnested : tags.filter (nestedTagPred n) = [])
    (hdirect : tags.find? (directTagPred n) = some dt)
    (hte : dt.typeExpr? = some te) :
    (p.hasInitializer = true →
      (visitParam c tags p).question = p.question) ∧
    (p.hasInitializer = false → (dt.isBracketed || isJSDocOptionalTypeB te) = true →
      (visitParam c tags p).question = true) := by
  constructor
  · intro hinit
    simp [visitParam, hty, hname, hnested, hdirect, hte, hinit, ParamDecl.question]
  · intro hinit hopt
    simp [visitParam, hty, hname, hnested, hdirect, hte, hinit, hopt,
      ParamDecl.question]

/-- Witness for C9: under the same bracketed optional tag, the parameter
with an initializer keeps its (absent) question token while the parameter
without one becomes optional. -/
theorem claim_C9_witness :
    (visitParam ⟨.anyKw, defaultTypeMap⟩ c9Tags c9ParamInit).question = false ∧
    (visitParam ⟨.anyKw, defaultTypeMap⟩ c9Tags c9ParamNoInit).question = true := by
  constructor
  · exact (claim_C9_initializer_blocks_question ⟨.anyKw, defaultTypeMap⟩ c9Tags
      c9ParamInit "x" ⟨some (.ident "x"), some (.jsdocOptional .stringKw), true⟩
      (.jsdocOptional .stringKw) rfl rfl rfl rfl rfl).1 rfl
  · exact (claim_C9_initializer_blocks_question ⟨.anyKw, defaultTypeMap⟩ c9Tags
      c9ParamNoInit "x" ⟨some (.ident "x"), some (.jsdocOptional .stringKw), true⟩
      (.jsdocOptional .stringKw) rfl rfl rfl rfl rfl).2 rfl rfl

/-- Witness for C5: a concretely annotated parameter, return type and
declarator are all left untouched. -/
theorem claim_C5_witness :
    visitParam ⟨.anyKw, defaultTypeMap⟩ [⟨some (.ident "x"), some .numberKw, false⟩]
        (.mk (some (.ident "x")) false false (some .stringKw) false) =
      .mk (some (.ident "x")) false false (some .stringKw) false ∧
    visitReturnType ⟨.anyKw, defaultTypeMap⟩ (some .stringKw) (some .numberKw) =
      some .stringKw ∧
    statementIntents ⟨[], 0, "a.js", .anyKw⟩ true
        (.varStmt true [⟨"Foo", 10, 40, some .stringKw,
          some (.call "PropTypes.shape" [.objectLit []])⟩] 0 41 "ft") =
      (true, []) :=
  claim_C5_existing_annotations_preserved _ _ _ _ _ _ _ _ _ _ _ _ _ _ rfl rfl

end TsMigrate
